import Mathlib

/-!
Verification of the monitoring-and-booking core of the sport-slot booking
program (src/booking.py), shallowly embedded in Lean 4.

Python dictionaries are embedded as association lists in insertion order
(Python dicts preserve insertion order; assigning a fresh key appends it,
assigning an existing key overwrites in place). Raised exceptions are
embedded as Except values.
-/

namespace SportBooking

/-- A field-to-booking-link mapping (innermost Python dict of
fetch_available_slots: field identifier to booking link, insertion order). -/
abbrev FieldMap := List (String × String)

/-- A time-slot-label-to-fields mapping (middle Python dict). -/
abbrev TimeMap := List (String × FieldMap)

/-- The AvailabilityMap: day name to time slots (outer Python dict,
day_slots in fetch_available_slots). -/
abbrev AvailabilityMap := List (String × TimeMap)

instance timeMapEntryDecEq : DecidableEq (String × FieldMap) := inferInstance

instance timeMapDecEq : DecidableEq TimeMap := @List.hasDecEq _ timeMapEntryDecEq

instance dayEntryDecEq : DecidableEq (String × TimeMap) :=
  @instDecidableEqProd _ _ _ timeMapDecEq

instance availabilityMapDecEq : DecidableEq AvailabilityMap :=
  @List.hasDecEq _ dayEntryDecEq

/-- Python dict assignment d[k] = v: overwrite in place when the key is
present, append when it is fresh. -/
def insertAssoc {β : Type} (k : String) (v : β) : List (String × β) → List (String × β)
  | [] => [(k, v)]
  | (k', v') :: rest => if k' = k then (k, v) :: rest else (k', v') :: insertAssoc k v rest

/-- Embedding of the Python f-string fragment f"{n:02d}" for a natural
number: pad with a leading zero to width two. -/
def format02 (n : Nat) : String :=
  if n < 10 then "0" ++ toString n else toString n

/-- BookingManager.generate_time_slot: convert a starting hour to the time
label used on the booking site, f"{hour:02d}:00-{(hour+1):02d}:00". -/
def generate_time_slot (hour : Nat) : String :=
  format02 hour ++ ":00-" ++ format02 (hour + 1) ++ ":00"

/-- The errors get_booking_link can raise: the ValueError it raises itself
after catching a KeyError (the SlotUnavailable condition), and the
StopIteration escaping from next(iter({})) when the field mapping exists
but is empty, which the except KeyError clause does not catch. -/
inductive ResolveErr
  | slotUnavailable
  | stopIteration
deriving DecidableEq, Repr

/-- BookingManager.get_booking_link. The first component is the returned
link or the raised error; the second component is the state of the slots
dict after the call. Line-by-line correspondence with the source:
slots is a defaultdict(dict), so the subscript slots[day] on an absent day
inserts (day, empty dict) at the end of the dict and yields the empty dict;
the subsequent [time] subscript on that plain inner dict raises KeyError,
caught and re-raised as ValueError. When day is present but the time label
is absent, the inner subscript raises KeyError likewise. When both are
present, next(iter(fields)) raises StopIteration on an empty fields dict
(not caught by except KeyError), and otherwise yields the first key in
insertion order, whose link is returned. The inner half of that control flow, from the [time]
subscript on, is factored out as resolveTimes. -/
def resolveTimes (slots : AvailabilityMap) (times : TimeMap) (label : String) :
    Except ResolveErr String × AvailabilityMap :=
  match times.lookup label with
  | none => (Except.error ResolveErr.slotUnavailable, slots)
  | some [] => (Except.error ResolveErr.stopIteration, slots)
  | some ((_, link) :: _) => (Except.ok link, slots)

/-- BookingManager.get_booking_link, outer half: the defaultdict day
subscript, then resolveTimes. -/
def get_booking_link (slots : AvailabilityMap) (day : String) (start_time : Nat) :
    Except ResolveErr String × AvailabilityMap :=
  match slots.lookup day with
  | none => (Except.error ResolveErr.slotUnavailable, slots ++ [(day, [])])
  | some times => resolveTimes slots times (generate_time_slot start_time)

instance {ε α : Type} [DecidableEq ε] [DecidableEq α] : DecidableEq (Except ε α)
  | Except.error e, Except.error e' =>
      if h : e = e' then isTrue (by rw [h])
      else isFalse (by intro hc; injection hc; contradiction)
  | Except.error _, Except.ok _ => isFalse (by intro hc; exact Except.noConfusion hc)
  | Except.ok _, Except.error _ => isFalse (by intro hc; exact Except.noConfusion hc)
  | Except.ok a, Except.ok a' =>
      if h : a = a' then isTrue (by rw [h])
      else isFalse (by intro hc; injection hc; contradiction)

/-- The scenario map from the spec:
Montag 15:00-16:00 with fields 3 (link-a) and 1 (link-b), in that
insertion order. -/
def exMap : AvailabilityMap :=
  [("Montag", [("15:00-16:00", [("3", "link-a"), ("1", "link-b")])])]

/-- The errors fetch_available_slots can raise: ConnectionError on a
status code other than 200 (the UnreachablePage condition) and ValueError
when the schedule container div is absent (the UnparseableSchedule
condition). -/
inductive FetchError
  | unreachablePage
  | unparseableSchedule
deriving DecidableEq

/-- One bookable cell of a slot row (a div with classes "date bookable").
When the cell holds an anchor tag, the parser reads from it the text of
the strong tag with class "time", the text of the span with class
"detail", and the href attribute; link carries those three strings. A
cell without an anchor tag (link = none) is skipped by the parser. -/
structure Cell where
  link : Option (String × String × String)
deriving DecidableEq

/-- One div with class "table-row" inside the table-body-group container.
headText is the text of its first div with classes "table-head column-1"
when one exists (a day-header row); cells are its "date bookable" divs.
The source tests the header condition first and the bookable-cells
condition only in an elif, so a row with a header is never treated as a
slot row. -/
structure Row where
  headText : Option String
  cells : List Cell
deriving DecidableEq

/-- The HTTP response as far as fetch_available_slots inspects it: the
status code, and the parsed rows of the table-body-group container, none
when that container is absent from the markup. -/
structure Response where
  status_code : Nat
  body : Option (List Row)
deriving DecidableEq

/-- Field-identifier extraction, source line
field = str(link_tag.find("span", class_="detail").text[-1]):
the trailing character of the detail text, as a string. -/
def extractField (detail : String) : String := detail.takeRight 1

/-- Processing of one bookable cell into the per-row time_slots dict:
skip when there is no anchor tag, otherwise
time_slots[time_slot][field] = booking_link on the defaultdict(dict)
time_slots. -/
def insertCellEntry (ts : TimeMap) (timeText detailText href : String) : TimeMap :=
  match ts.lookup timeText with
  | none => insertAssoc timeText [(extractField detailText, href)] ts
  | some fm => insertAssoc timeText (insertAssoc (extractField detailText) href fm) ts

def processCell (ts : TimeMap) (c : Cell) : TimeMap :=
  match c.link with
  | none => ts
  | some (timeText, detailText, href) => insertCellEntry ts timeText detailText href

/-- The per-slot-row loop over available_slots, building time_slots from
the empty dict. -/
def processCells (cells : List Cell) : TimeMap :=
  cells.foldl processCell []

/-- One step of the copy loop
day_slots[day_name][time_slot] = time_slots[time_slot]:
day_slots is a defaultdict(dict), so an absent day key is created (at the
end) and the time slot inserted into it. -/
def insertDayEntry (day : String) (ds : AvailabilityMap) (e : String × FieldMap) :
    AvailabilityMap :=
  match ds.lookup day with
  | none => insertAssoc day [e] ds
  | some dm => insertAssoc day (insertAssoc e.1 e.2 dm) ds

/-- The copy loop over time_slots in insertion order. -/
def insertDaySlots (ds : AvailabilityMap) (day : String) (ts : TimeMap) : AvailabilityMap :=
  ts.foldl (insertDayEntry day) ds

/-- The body of the row loop of fetch_available_slots, threading the
mutable scan state (day_name, day_slots). A header row updates day_name
to the stripped header text; otherwise, a row with at least one bookable
cell merges its time_slots into day_slots under the current day_name; a
row with no header and no bookable cells changes nothing. -/
def processRow (st : String × AvailabilityMap) (r : Row) : String × AvailabilityMap :=
  match r.headText with
  | some name => (name.trim, st.2)
  | none =>
      if r.cells.isEmpty then st
      else (st.1, insertDaySlots st.2 st.1 (processCells r.cells))

/-- The full row loop: day_name is initialized to "Montag" before the
loop (the first day is not inside the table body group), day_slots to the
empty defaultdict. -/
def parseRows (rows : List Row) : AvailabilityMap :=
  (rows.foldl processRow ("Montag", [])).2

/-- BookingManager.fetch_available_slots: raise ConnectionError when the
status code differs from 200, raise ValueError when the table-body-group
container is absent, otherwise run the row loop and return day_slots. -/
def fetch_available_slots (resp : Response) : Except FetchError AvailabilityMap :=
  if resp.status_code ≠ 200 then Except.error FetchError.unreachablePage
  else
    match resp.body with
    | none => Except.error FetchError.unparseableSchedule
    | some rows => Except.ok (parseRows rows)

/-- Non-emptiness of every field mapping stored in a TimeMap. -/
def fieldMapsNonempty (ts : TimeMap) : Prop :=
  ∀ q ∈ ts, q.2 ≠ []

/-- The well-formedness invariant claimed for parser output: every day
present maps to at least one time-slot label, and every time-slot label
present maps to at least one field entry. -/
def mapWellFormed (m : AvailabilityMap) : Prop :=
  ∀ p ∈ m, p.2 ≠ [] ∧ ∀ q ∈ p.2, q.2 ≠ []

instance (ts : TimeMap) : Decidable (fieldMapsNonempty ts) := by
  unfold fieldMapsNonempty; infer_instance

instance (m : AvailabilityMap) : Decidable (mapWellFormed m) := by
  unfold mapWellFormed; infer_instance

/-- The observable outcome of one call of attempt_booking: ok when fetch,
resolve and fill_form all completed; otherwise the exception it raised
(ConnectionError alias UnreachablePage, ValueError from the missing
container alias UnparseableSchedule, ValueError from get_booking_link
alias SlotUnavailable, or a failure inside fill_form itself). -/
inductive AttemptOutcome
  | ok
  | errUnreachable
  | errUnparseable
  | errSlotUnavailable
  | errForm
deriving DecidableEq

/-- The fate of a monitor_slots run over a finite prefix of attempt
outcomes: still polling after the prefix, or terminated because an
exception propagated; fills counts how often fill_form was entered. -/
inductive MonitorResult
  | running (fills : Nat)
  | crashed (fills : Nat) (e : AttemptOutcome)
deriving DecidableEq

/-- BookingManager.monitor_slots over a finite prefix of attempt
outcomes. The source body is: while True, call attempt_booking, then
sleep out the refresh interval in one-second steps, with no try/except
around the call and no break or return after it. Hence an exception
raised by attempt_booking propagates out of monitor_slots (terminating
the process), and a completed attempt_booking (fill_form entered and
finished) is followed by the sleep and another full iteration. An
attempt that fails inside fill_form entered fill_form once before
crashing. -/
def monitor_slots_run : List AttemptOutcome → Nat → MonitorResult
  | [], fills => MonitorResult.running fills
  | AttemptOutcome.ok :: rest, fills => monitor_slots_run rest (fills + 1)
  | AttemptOutcome.errForm :: _, fills =>
      MonitorResult.crashed (fills + 1) AttemptOutcome.errForm
  | e :: _, fills => MonitorResult.crashed fills e

/-- The review-window wait loop at the end of fill_form, entered after
the confirmation checkbox is checked (the Confirm state). clock i is the
value of the i-th call of time.time() (clock 0 is the reading bound to
t0); rt is review_time_s. Each iteration reads the clock, computes
elapsed = clock i - t0, breaks when elapsed exceeds rt and otherwise
sleeps one second; the value returned is the elapsed time observed at
the break, the moment the kostenpflichtig-buchen click fires. fuel
bounds the number of iterations modelled; none means the loop was still
waiting after fuel iterations. -/
def reviewLoop (clock : Nat → ℚ) (t0 rt : ℚ) (i fuel : Nat) : Option ℚ :=
  match fuel with
  | 0 => none
  | Nat.succ fuel' =>
      if clock i - t0 > rt then some (clock i - t0)
      else reviewLoop clock t0 rt (i + 1) fuel'

/-- The Confirm stage of fill_form: t0 = time.time(), then the wait loop,
returning the elapsed time at which the final click fires. -/
def confirmClickElapsed (clock : Nat → ℚ) (rt : ℚ) (fuel : Nat) : Option ℚ :=
  reviewLoop clock (clock 0) rt 1 fuel

/-- The character of a single decimal digit. -/
def digitChar (n : Nat) : Char := Char.ofNat (48 + n)

/-- The time-slot label the spec prescribes, spelled out character by
character: two zero-padded decimal digits of the hour, a colon-zero-zero,
a dash, and the same for hour+1. -/
def specTimeSlotLabel (hour : Nat) : String :=
  ⟨[digitChar (hour / 10), digitChar (hour % 10), ':', '0', '0', '-',
    digitChar ((hour + 1) / 10), digitChar ((hour + 1) % 10), ':', '0', '0']⟩

end SportBooking

namespace SportBooking

theorem get_booking_link_day_none {slots : AvailabilityMap} {day : String} {t : Nat}
    (h : slots.lookup day = none) :
    get_booking_link slots day t =
      (Except.error ResolveErr.slotUnavailable, slots ++ [(day, [])]) := by
  unfold get_booking_link
  rw [h]

theorem get_booking_link_day_some {slots : AvailabilityMap} {day : String} {t : Nat}
    {times : TimeMap} (h : slots.lookup day = some times) :
    get_booking_link slots day t = resolveTimes slots times (generate_time_slot t) := by
  unfold get_booking_link
  rw [h]

theorem resolveTimes_lookup_none {slots : AvailabilityMap} {times : TimeMap} {label : String}
    (h : times.lookup label = none) :
    resolveTimes slots times label = (Except.error ResolveErr.slotUnavailable, slots) := by
  unfold resolveTimes
  rw [h]

theorem resolveTimes_lookup_nil {slots : AvailabilityMap} {times : TimeMap} {label : String}
    (h : times.lookup label = some []) :
    resolveTimes slots times label = (Except.error ResolveErr.stopIteration, slots) := by
  unfold resolveTimes
  rw [h]

theorem resolveTimes_lookup_cons {slots : AvailabilityMap} {times : TimeMap} {label : String}
    {f link : String} {rest : FieldMap} (h : times.lookup label = some ((f, link) :: rest)) :
    resolveTimes slots times label = (Except.ok link, slots) := by
  unfold resolveTimes
  rw [h]

/-- Claim C7: for every integer hour in the interval from 8 inclusive to 22
exclusive, generate_time_slot hour is the string whose characters are the
two zero-padded digits of hour, ":00-", the two zero-padded digits of
hour+1, and ":00"; in particular the boundary values 8 and 21 yield
"08:00-09:00" and "21:00-22:00". -/
theorem c7_time_slot_label (hour : Nat) (h1 : 8 ≤ hour) (h2 : hour < 22) :
    generate_time_slot hour = specTimeSlotLabel hour ∧
    generate_time_slot 8 = "08:00-09:00" ∧
    generate_time_slot 21 = "21:00-22:00" := by
  refine ⟨?_, by decide, by decide⟩
  interval_cases hour <;> decide

/-- Witness for C7 at the lower boundary hour 8. -/
theorem c7_time_slot_label_witness :
    generate_time_slot 8 = specTimeSlotLabel 8 ∧ generate_time_slot 8 = "08:00-09:00" := by
  have h := c7_time_slot_label 8 (by decide) (by decide)
  exact ⟨h.1, h.2.1⟩

/-- Claim C6: get_booking_link is a pure function of (slots, day,
start_time), hence deterministic, and on success returns the booking link
of the first field entry in insertion order of the field mapping for the
resolved day and time label, regardless of the remaining entries. -/
theorem c6_first_field_in_insertion_order (slots : AvailabilityMap) (day : String)
    (start_time : Nat) (times : TimeMap) (f link : String) (rest : FieldMap)
    (hd : slots.lookup day = some times)
    (ht : times.lookup (generate_time_slot start_time) = some ((f, link) :: rest)) :
    (get_booking_link slots day start_time).1 = Except.ok link := by
  rw [get_booking_link_day_some hd, resolveTimes_lookup_cons ht]

/-- Witness for C6 on the scenario map of the spec: day Montag, hour 15,
fields inserted in the order 3 then 1; the result is link-a, the link of
field 3 (first inserted), not of the numerically smaller field 1. -/
theorem c6_first_field_witness :
    (get_booking_link exMap "Montag" 15).1 = Except.ok "link-a" :=
  c6_first_field_in_insertion_order exMap "Montag" 15
    [("15:00-16:00", [("3", "link-a"), ("1", "link-b")])]
    "3" "link-a" [("1", "link-b")] (by decide) (by decide)

/-- Counterexample to claim C3: on a map whose field mapping for the
requested day and time is present but empty, get_booking_link does not
fail with the SlotUnavailable ValueError; next(iter({})) raises
StopIteration, which the except KeyError clause does not catch, so a
different error escapes. -/
theorem c3_counterexample :
    (get_booking_link [("Montag", [("15:00-16:00", [])])] "Montag" 15).1 =
      Except.error ResolveErr.stopIteration ∧
    ResolveErr.stopIteration ≠ ResolveErr.slotUnavailable := by
  constructor
  · decide
  · decide

/-- Claim C3 as amended: get_booking_link fails with the single
SlotUnavailable error in exactly two of the three cases, absent day key
and absent time label, and those two are indistinguishable to the
caller; the third case, a present but empty field mapping, instead
raises the distinct uncaught StopIteration. -/
theorem c3_slot_unavailable_cases (slots : AvailabilityMap) (day : String)
    (start_time : Nat) :
    (slots.lookup day = none →
      (get_booking_link slots day start_time).1 =
        Except.error ResolveErr.slotUnavailable) ∧
    (∀ times : TimeMap, slots.lookup day = some times →
      times.lookup (generate_time_slot start_time) = none →
      (get_booking_link slots day start_time).1 =
        Except.error ResolveErr.slotUnavailable) ∧
    (∀ times : TimeMap, slots.lookup day = some times →
      times.lookup (generate_time_slot start_time) = some [] →
      (get_booking_link slots day start_time).1 =
        Except.error ResolveErr.stopIteration) := by
  refine ⟨fun hd => ?_, fun times hd ht => ?_, fun times hd ht => ?_⟩
  · rw [get_booking_link_day_none hd]
  · rw [get_booking_link_day_some hd, resolveTimes_lookup_none ht]
  · rw [get_booking_link_day_some hd, resolveTimes_lookup_nil ht]

/-- Witness for the amended C3: the day Dienstag is absent from the
scenario map, and the call reports SlotUnavailable. -/
theorem c3_slot_unavailable_witness :
    (get_booking_link exMap "Dienstag" 15).1 = Except.error ResolveErr.slotUnavailable :=
  (c3_slot_unavailable_cases exMap "Dienstag" 15).1 (by decide)

/-- Counterexample to claim C9: a failing call of get_booking_link on an
absent day mutates the map. slots is a defaultdict(dict), so the
subscript slots[day] inserts an empty entry for the absent day before
the KeyError is raised, and the insertion survives the call: the map is
no longer structurally equal to its value before the call. -/
theorem c9_counterexample :
    (get_booking_link exMap "Dienstag" 15).2 ≠ exMap := by
  decide

/-- Claim C9 as amended: get_booking_link leaves the map unchanged
whenever the requested day key is present, whether it succeeds or fails;
when the day key is absent, the defaultdict subscript appends exactly one
empty entry for that day, and the map is otherwise unchanged. -/
theorem c9_mutation_only_on_absent_day (slots : AvailabilityMap) (day : String)
    (start_time : Nat) :
    ((∃ times : TimeMap, slots.lookup day = some times) →
      (get_booking_link slots day start_time).2 = slots) ∧
    (slots.lookup day = none →
      (get_booking_link slots day start_time).2 = slots ++ [(day, [])]) := by
  constructor
  · rintro ⟨times, hd⟩
    rw [get_booking_link_day_some hd]
    cases ht : times.lookup (generate_time_slot start_time) with
    | none => rw [resolveTimes_lookup_none ht]
    | some fm =>
        cases fm with
        | nil => rw [resolveTimes_lookup_nil ht]
        | cons e rest =>
            obtain ⟨f, link⟩ := e
            rw [resolveTimes_lookup_cons ht]
  · intro hd
    rw [get_booking_link_day_none hd]

/-- Witness for the amended C9: with the day present, the scenario map is
returned unchanged. -/
theorem c9_mutation_witness :
    (get_booking_link exMap "Montag" 15).2 = exMap :=
  (c9_mutation_only_on_absent_day exMap "Montag" 15).1
    ⟨[("15:00-16:00", [("3", "link-a"), ("1", "link-b")])], by decide⟩

/-- Counterexample to claim C5: 201 is a 2xx status code, so by the claim
the parser should proceed, but the source tests status_code != 200 and
raises ConnectionError, the UnreachablePage condition. -/
theorem c5_counterexample :
    (200 ≤ 201 ∧ 201 < 300) ∧
    fetch_available_slots { status_code := 201, body := some [] } =
      Except.error FetchError.unreachablePage := by
  refine ⟨by decide, ?_⟩
  decide

/-- Claim C5 as amended: fetch_available_slots fails with UnreachablePage
exactly when the status code differs from 200; success of the fetch is
status 200 precisely, not any 2xx code. -/
theorem c5_unreachable_iff_not_200 (resp : Response) :
    fetch_available_slots resp = Except.error FetchError.unreachablePage ↔
      resp.status_code ≠ 200 := by
  constructor
  · intro h hs
    unfold fetch_available_slots at h
    rw [if_neg (by simpa using hs)] at h
    match hb : resp.body with
    | none => rw [hb] at h; exact FetchError.noConfusion (Except.error.inj h)
    | some rows => rw [hb] at h; exact Except.noConfusion h
  · intro hs
    unfold fetch_available_slots
    rw [if_pos hs]

/-- Witness for the amended C5 at status 500. -/
theorem c5_unreachable_witness :
    fetch_available_slots { status_code := 500, body := some [] } =
      Except.error FetchError.unreachablePage :=
  (c5_unreachable_iff_not_200 { status_code := 500, body := some [] }).mpr (by decide)

theorem insertAssoc_ne_nil {β : Type} (k : String) (v : β) (m : List (String × β)) :
    insertAssoc k v m ≠ [] := by
  cases m with
  | nil => simp [insertAssoc]
  | cons p rest =>
      obtain ⟨k', v'⟩ := p
      unfold insertAssoc
      split <;> simp

theorem mem_insertAssoc {β : Type} {p : String × β} {k : String} {v : β} :
    ∀ {m : List (String × β)}, p ∈ insertAssoc k v m → p = (k, v) ∨ p ∈ m := by
  intro m
  induction m with
  | nil =>
      intro h
      simp [insertAssoc] at h
      exact Or.inl h
  | cons q rest ih =>
      obtain ⟨k', v'⟩ := q
      intro h
      unfold insertAssoc at h
      by_cases hk : k' = k
      · rw [if_pos hk] at h
        rcases List.mem_cons.mp h with h1 | h2
        · exact Or.inl h1
        · exact Or.inr (List.mem_cons_of_mem _ h2)
      · rw [if_neg hk] at h
        rcases List.mem_cons.mp h with h1 | h2
        · exact Or.inr (h1 ▸ List.mem_cons_self _ _)
        · rcases ih h2 with h3 | h4
          · exact Or.inl h3
          · exact Or.inr (List.mem_cons_of_mem _ h4)

theorem lookup_mem {β : Type} {k : String} {v : β} :
    ∀ {m : List (String × β)}, m.lookup k = some v → (k, v) ∈ m := by
  intro m
  induction m with
  | nil => intro h; simp [List.lookup] at h
  | cons q rest ih =>
      obtain ⟨a, b⟩ := q
      intro h
      rw [List.lookup_cons] at h
      by_cases hk : k = a
      · subst hk
        simp only [beq_self_eq_true] at h
        exact (Option.some.inj h) ▸ List.mem_cons_self _ _
      · have hb : (k == a) = false := beq_eq_false_iff_ne.mpr hk
        rw [hb] at h
        exact List.mem_cons_of_mem _ (ih h)

theorem insertCellEntry_lookup_none {ts : TimeMap} {timeText detailText href : String}
    (hts : ts.lookup timeText = none) :
    insertCellEntry ts timeText detailText href =
      insertAssoc timeText [(extractField detailText, href)] ts := by
  unfold insertCellEntry
  rw [hts]

theorem insertCellEntry_lookup_some {ts : TimeMap} {timeText detailText href : String}
    {fm : FieldMap} (hts : ts.lookup timeText = some fm) :
    insertCellEntry ts timeText detailText href =
      insertAssoc timeText (insertAssoc (extractField detailText) href fm) ts := by
  unfold insertCellEntry
  rw [hts]

theorem fieldMapsNonempty_insertCellEntry (ts : TimeMap) (timeText detailText href : String)
    (h : fieldMapsNonempty ts) :
    fieldMapsNonempty (insertCellEntry ts timeText detailText href) := by
  cases hts : ts.lookup timeText with
  | none =>
      rw [insertCellEntry_lookup_none hts]
      intro q hq
      rcases mem_insertAssoc hq with h1 | h2
      · rw [h1]; simp
      · exact h q h2
  | some fm =>
      rw [insertCellEntry_lookup_some hts]
      intro q hq
      rcases mem_insertAssoc hq with h1 | h2
      · rw [h1]
        exact insertAssoc_ne_nil _ _ _
      · exact h q h2

theorem fieldMapsNonempty_processCell (ts : TimeMap) (c : Cell)
    (h : fieldMapsNonempty ts) : fieldMapsNonempty (processCell ts c) := by
  obtain ⟨lnk⟩ := c
  cases lnk with
  | none => exact h
  | some entry =>
      obtain ⟨timeText, detailText, href⟩ := entry
      exact fieldMapsNonempty_insertCellEntry ts timeText detailText href h

theorem fieldMapsNonempty_foldl_cells :
    ∀ (cells : List Cell) (ts : TimeMap), fieldMapsNonempty ts →
      fieldMapsNonempty (cells.foldl processCell ts) := by
  intro cells
  induction cells with
  | nil => intro ts h; exact h
  | cons c rest ih =>
      intro ts h
      rw [List.foldl_cons]
      exact ih _ (fieldMapsNonempty_processCell ts c h)

theorem fieldMapsNonempty_processCells (cells : List Cell) :
    fieldMapsNonempty (processCells cells) :=
  fieldMapsNonempty_foldl_cells cells [] (by intro q hq; cases hq)

theorem mapWellFormed_insertDayEntry (day : String) (ds : AvailabilityMap)
    (e : String × FieldMap) (hds : mapWellFormed ds) (he : e.2 ≠ []) :
    mapWellFormed (insertDayEntry day ds e) := by
  unfold insertDayEntry
  cases hl : ds.lookup day with
  | none =>
      intro p hp
      rcases mem_insertAssoc hp with h1 | h2
      · rw [h1]
        refine ⟨by simp, ?_⟩
        intro q hq
        simp at hq
        rw [hq]
        exact he
      · exact hds p h2
  | some dm =>
      intro p hp
      rcases mem_insertAssoc hp with h1 | h2
      · rw [h1]
        refine ⟨insertAssoc_ne_nil _ _ _, ?_⟩
        intro q hq
        rcases mem_insertAssoc hq with h3 | h4
        · rw [h3]; exact he
        · exact (hds (day, dm) (lookup_mem hl)).2 q h4
      · exact hds p h2

theorem mapWellFormed_insertDaySlots (day : String) :
    ∀ (ts : TimeMap) (ds : AvailabilityMap), mapWellFormed ds → fieldMapsNonempty ts →
      mapWellFormed (insertDaySlots ds day ts) := by
  intro ts
  induction ts with
  | nil => intro ds hds _; exact hds
  | cons e rest ih =>
      intro ds hds hts
      have he : e.2 ≠ [] := hts e (List.mem_cons_self _ _)
      have hrest : fieldMapsNonempty rest :=
        fun q hq => hts q (List.mem_cons_of_mem _ hq)
      unfold insertDaySlots
      rw [List.foldl_cons]
      exact ih (insertDayEntry day ds e) (mapWellFormed_insertDayEntry day ds e hds he) hrest

theorem mapWellFormed_processRow (st : String × AvailabilityMap) (r : Row)
    (h : mapWellFormed st.2) : mapWellFormed (processRow st r).2 := by
  obtain ⟨ht, cells⟩ := r
  unfold processRow
  cases ht with
  | some name => exact h
  | none =>
      by_cases hc : cells.isEmpty
      · simp only [hc, if_true]
        exact h
      · simp only [hc, if_false]
        exact mapWellFormed_insertDaySlots st.1 (processCells cells) st.2 h
          (fieldMapsNonempty_processCells cells)

theorem mapWellFormed_foldl_rows :
    ∀ (rows : List Row) (st : String × AvailabilityMap), mapWellFormed st.2 →
      mapWellFormed ((rows.foldl processRow st)).2 := by
  intro rows
  induction rows with
  | nil => intro st h; exact h
  | cons r rest ih =>
      intro st h
      rw [List.foldl_cons]
      exact ih _ (mapWellFormed_processRow st r h)

/-- Claim C10: every AvailabilityMap returned by fetch_available_slots is
well formed: each day present carries at least one time-slot label and
each time-slot label present carries at least one field entry, so the
empty-field-mapping case can never arise from a parser-produced map. -/
theorem c10_parser_invariant (resp : Response) (m : AvailabilityMap)
    (h : fetch_available_slots resp = Except.ok m) : mapWellFormed m := by
  unfold fetch_available_slots at h
  by_cases hs : resp.status_code ≠ 200
  · rw [if_pos hs] at h
    exact Except.noConfusion h
  · rw [if_neg hs] at h
    cases hb : resp.body with
    | none =>
        rw [hb] at h
        exact Except.noConfusion h
    | some rows =>
        rw [hb] at h
        have hm : parseRows rows = m := Except.ok.inj h
        rw [← hm]
        exact mapWellFormed_foldl_rows rows ("Montag", []) (by intro p hp; cases hp)

/-- Witness for C10: a response with one slot row. -/
theorem c10_parser_invariant_witness :
    mapWellFormed (parseRows [⟨none, [⟨some ("15:00-16:00", "Feld 3", "link-a")⟩]⟩]) :=
  c10_parser_invariant
    { status_code := 200, body := some [⟨none, [⟨some ("15:00-16:00", "Feld 3", "link-a")⟩]⟩] }
    (parseRows [⟨none, [⟨some ("15:00-16:00", "Feld 3", "link-a")⟩]⟩]) rfl

theorem processRow_fst_of_no_header {st : String × AvailabilityMap} {r : Row}
    (h : r.headText = none) : (processRow st r).1 = st.1 := by
  obtain ⟨ht, cells⟩ := r
  simp only at h
  subst h
  unfold processRow
  by_cases hc : cells.isEmpty
  · rw [if_pos hc]
  · rw [if_neg hc]

theorem foldl_fst_no_header :
    ∀ (rows : List Row) (st : String × AvailabilityMap),
      (∀ r ∈ rows, r.headText = none) → (rows.foldl processRow st).1 = st.1 := by
  intro rows
  induction rows with
  | nil => intro st _; rfl
  | cons r rest ih =>
      intro st hall
      rw [List.foldl_cons]
      rw [ih _ (fun x hx => hall x (List.mem_cons_of_mem _ hx))]
      exact processRow_fst_of_no_header (hall r (List.mem_cons_self _ _))

/-- Claim C8: during parsing, the current-day context behaves as claimed:
(1) when no day-header row has been seen, the day context stays at the
fixed default "Montag"; (2) a day-header row sets the context to its
stripped header text, and the context persists across any following rows
that carry no header of their own; (3) a slot row with at least one
bookable cell merges its time slots into the map under the current day
context. -/
theorem c8_day_context :
    (∀ rows : List Row, (∀ r ∈ rows, r.headText = none) →
      (rows.foldl processRow ("Montag", ([] : AvailabilityMap))).1 = "Montag") ∧
    (∀ (pre mid : List Row) (name : String) (cells : List Cell),
      (∀ r ∈ mid, r.headText = none) →
      ((pre ++ ⟨some name, cells⟩ :: mid).foldl processRow
        ("Montag", ([] : AvailabilityMap))).1 = name.trim) ∧
    (∀ (st : String × AvailabilityMap) (cells : List Cell), cells ≠ [] →
      processRow st ⟨none, cells⟩ = (st.1, insertDaySlots st.2 st.1 (processCells cells))) := by
  refine ⟨fun rows h => foldl_fst_no_header rows _ h, ?_, ?_⟩
  · intro pre mid name cells hmid
    rw [List.foldl_append, List.foldl_cons]
    rw [foldl_fst_no_header mid _ hmid]
    rfl
  · intro st cells hc
    unfold processRow
    simp only
    rw [if_neg (by simpa [List.isEmpty_iff] using hc)]

/-- Witness for C8: one headerless slot row leaves the day context at the
default "Montag". -/
theorem c8_day_context_witness :
    (([⟨none, [⟨some ("15:00-16:00", "Feld 3", "link-a")⟩]⟩] : List Row).foldl processRow
      ("Montag", ([] : AvailabilityMap))).1 = "Montag" :=
  c8_day_context.1 [⟨none, [⟨some ("15:00-16:00", "Feld 3", "link-a")⟩]⟩]
    (by intro r hr; simp at hr; rw [hr])

theorem reviewLoop_gt {clock : Nat → ℚ} {t0 rt : ℚ} :
    ∀ {fuel i : Nat} {e : ℚ}, reviewLoop clock t0 rt i fuel = some e → rt < e := by
  intro fuel
  induction fuel with
  | zero =>
      intro i e h
      simp [reviewLoop] at h
  | succ n ih =>
      intro i e h
      unfold reviewLoop at h
      split at h
      · rename_i hgt
        exact (Option.some.inj h) ▸ hgt
      · exact ih h

/-- Claim C4: in every run of fill_form, the final kostenpflichtig-buchen
click fires only after the observed elapsed time since entering the
Confirm state exceeds review_time_s, so for every non-negative
review_time_s at least review_time_s seconds have elapsed before the
click. -/
theorem c4_review_window (clock : Nat → ℚ) (rt : ℚ) (fuel : Nat) (e : ℚ)
    (_hrt : 0 ≤ rt) (h : confirmClickElapsed clock rt fuel = some e) : rt ≤ e := by
  unfold confirmClickElapsed at h
  exact le_of_lt (reviewLoop_gt h)

/-- Witness for C4: with the clock advancing one second per reading and a
two-second review window, the click fires at elapsed time three. -/
theorem c4_review_window_witness :
    confirmClickElapsed (fun n => (n : ℚ)) 2 10 = some 3 ∧ (2 : ℚ) ≤ 3 := by
  have hc : confirmClickElapsed (fun n => (n : ℚ)) 2 10 = some 3 := by
    norm_num [confirmClickElapsed, reviewLoop]
  exact ⟨hc, c4_review_window (fun n => (n : ℚ)) 2 10 3 (by norm_num) hc⟩

/-- Claim C1 evaluated on the code: monitor_slots has no exception
handler around attempt_booking, so a SlotUnavailable, UnreachablePage or
UnparseableSchedule failure of the first poll propagates and terminates
the loop; the second, successful poll that the claim promises is never
reached and fill_form is never entered. -/
theorem c1_monitor_crashes_on_transient_error :
    monitor_slots_run [AttemptOutcome.errSlotUnavailable, AttemptOutcome.ok] 0 =
      MonitorResult.crashed 0 AttemptOutcome.errSlotUnavailable ∧
    monitor_slots_run [AttemptOutcome.errUnreachable, AttemptOutcome.ok] 0 =
      MonitorResult.crashed 0 AttemptOutcome.errUnreachable ∧
    monitor_slots_run [AttemptOutcome.errUnparseable, AttemptOutcome.ok] 0 =
      MonitorResult.crashed 0 AttemptOutcome.errUnparseable :=
  ⟨rfl, rfl, rfl⟩

/-- Claim C2 evaluated on the code: monitor_slots has no break or return
after a completed attempt_booking, so after a successful booking it
sleeps out the interval and runs another full iteration; with the slot
available twice in a row, fill_form is entered twice and the loop is
still running. -/
theorem c2_monitor_books_twice :
    monitor_slots_run [AttemptOutcome.ok, AttemptOutcome.ok] 0 =
      MonitorResult.running 2 := rfl

end SportBooking
